import Mathlib

/-!
Shallow embedding of the `TrackDispatcher` class of
`src/core/api/track_management/track_dispatcher.ts` together with the
primitives it relies on (`SharedReference`, `TaskCanceller`, `EventEmitter`,
which are not part of the provided sources and are therefore modelled from
the specification, sections 4.1 and 4.2).

The stateful TypeScript code is embedded as explicit state passing:
  * `updateReferenceIfNeeded` (the recompute closure of
    `_constructLockedRepresentationsReference`) becomes a pure function from
    the adaptation, the current locked-representations setting and the
    sub-channel's current value to a `RecomputeResult` describing the
    sub-channel's next value, whether `setValue` was called, the events
    triggered and the possibly mutated adaptation.
  * The dispatcher itself becomes a `DispatcherState` record and the public
    operations `start` / `updateTrack` / `dispose` become state
    transformers.  Synchronous re-entrancy (a listener calling back into
    `updateTrack` while an outer call is constructing its sub-channel) is
    modelled by `runChain`, which executes a list of nested operations, each
    running at the sub-channel-construction point of the previous one.
-/

namespace RxPlayer

/-! ### Data model -/

/-- Model of `IAudioRepresentationsSwitchingMode | IVideoRepresentationsSwitchingMode`. -/
inductive RepresentationsSwitchingMode
  | seamless
  | lazy
  | direct
  | reload
deriving DecidableEq

/-- Model of `ITrackSwitchingMode`. -/
inductive TrackSwitchingMode
  | seamless
  | direct
  | reload
deriving DecidableEq

/-- A `Representation` as the dispatcher sees it: an identity `id`, an
ordering key `bitrate`, and the current result of its `isPlayable()`
method. -/
structure Representation where
  id : String
  bitrate : Nat
  isPlayable : Bool
deriving DecidableEq

/-- An `Adaptation` as the dispatcher sees it: its `Representation`s and its
mutable `isSupported` flag. -/
structure Adaptation where
  representations : List Representation
  isSupported : Bool
deriving DecidableEq

/-- Model of `Adaptation.prototype.getPlayableRepresentations`: the representations
for which `isPlayable()` currently holds. -/
def Adaptation.getPlayableRepresentations (a : Adaptation) : List Representation :=
  a.representations.filter (fun r => r.isPlayable)

/-- Model of `IRepresentationsChoice`: value type of the Representations-Choice
sub-channel. -/
structure RepresentationsChoice where
  representations : List Representation
  switchingMode : RepresentationsSwitchingMode
deriving DecidableEq

/-! ### The sort used at line 217-218 of `track_dispatcher.ts`

`playableRepresentations.slice().sort((ra, rb) => ra.bitrate - rb.bitrate)`:
JavaScript `Array.prototype.sort` with this comparator is a stable ascending
sort on `bitrate`; it is modelled by `List.insertionSort` on the `bitrate`
preorder, which is exactly the classic stable insertion sort. -/

def bitrateLE (a b : Representation) : Prop :=
  a.bitrate ≤ b.bitrate

instance : DecidableRel bitrateLE :=
  fun a b => Nat.decLe a.bitrate b.bitrate

instance : IsTotal Representation bitrateLE :=
  ⟨fun a b => Nat.le_total a.bitrate b.bitrate⟩

instance : IsTrans Representation bitrateLE :=
  ⟨fun _ _ _ h1 h2 => Nat.le_trans h1 h2⟩

def sortByBitrate (l : List Representation) : List Representation :=
  l.insertionSort bitrateLE

/-! ### The recompute of the Representations-Choice sub-channel -/

/-- Keys of `ITrackDispatcherEvent`: the events the dispatcher can trigger. -/
inductive TrackDispatcherEvent
  | noPlayableLockedRepresentation
  | noPlayableRepresentation
deriving DecidableEq

/-- Result of one run of `updateReferenceIfNeeded` (lines 186-229):
the adaptation after the run (its `isSupported` flag may have been reset),
the sub-channel's value after the run, whether `reference.setValue` was
called, and the events triggered on the dispatcher during the run. -/
structure RecomputeResult where
  adaptation : Adaptation
  newRef : RepresentationsChoice
  published : Bool
  events : List TrackDispatcherEvent
deriving DecidableEq

/-- Lines 209-228 of `track_dispatcher.ts`: the part of
`updateReferenceIfNeeded` that runs after the locked/unlocked branch has
produced `playableRepresentations` and `switchingMode`. -/
def checkPlayableAndPublish (adaptation : Adaptation)
    (playableRepresentations : List Representation)
    (switchingMode : RepresentationsSwitchingMode)
    (oldRef : RepresentationsChoice) : RecomputeResult :=
  if playableRepresentations.length ≤ 0 then
    { adaptation := { adaptation with isSupported := false }
      newRef := oldRef
      published := false
      events := [TrackDispatcherEvent.noPlayableRepresentation] }
  else
    let sortedReps := sortByBitrate playableRepresentations
    if sortedReps.length ≠ oldRef.representations.length then
      { adaptation := adaptation
        newRef := { representations := sortedReps, switchingMode := switchingMode }
        published := true
        events := [] }
    else if (oldRef.representations.zip sortedReps).any (fun p => p.1.id != p.2.id) then
      { adaptation := adaptation
        newRef := { representations := sortedReps, switchingMode := switchingMode }
        published := true
        events := [] }
    else
      { adaptation := adaptation
        newRef := oldRef
        published := false
        events := [] }

/-- Lines 186-229 of `track_dispatcher.ts`: one synchronous run of the
`updateReferenceIfNeeded` closure.  `repSettings` is the current value of
`trackInfo.lockedRepresentations`, `oldRef` the sub-channel's current
value. -/
def updateReferenceIfNeeded (adaptation : Adaptation)
    (repSettings : Option RepresentationsChoice)
    (oldRef : RepresentationsChoice) : RecomputeResult :=
  match repSettings with
  | none =>
      checkPlayableAndPublish adaptation adaptation.getPlayableRepresentations
        RepresentationsSwitchingMode.lazy oldRef
  | some rs =>
      let playableRepresentations := rs.representations.filter (fun r => r.isPlayable)
      if playableRepresentations.length = 0 then
        { adaptation := adaptation
          newRef := oldRef
          published := false
          events := [TrackDispatcherEvent.noPlayableLockedRepresentation] }
      else
        checkPlayableAndPublish adaptation playableRepresentations
          rs.switchingMode oldRef

/-- The candidate set of a recompute: the unlocked branch uses
`adaptation.getPlayableRepresentations()`, the locked branch filters the
locked list to the playable representations. -/
def candidateRepresentations (adaptation : Adaptation)
    (repSettings : Option RepresentationsChoice) : List Representation :=
  match repSettings with
  | none => adaptation.getPlayableRepresentations
  | some rs => rs.representations.filter (fun r => r.isPlayable)

/-- The switching mode a recompute publishes with: `"lazy"` when unlocked,
the lock's own mode when locked. -/
def chosenSwitchingMode (repSettings : Option RepresentationsChoice) :
    RepresentationsSwitchingMode :=
  match repSettings with
  | none => RepresentationsSwitchingMode.lazy
  | some rs => rs.switchingMode

/-! ### The Representations-Choice sub-channel

`SharedReference` is not part of the provided sources; its value semantics
are modelled from the spec, section 4.2: `getValue` returns the current
value, `setValue` replaces it and notifies subscribers synchronously. -/

/-- State of the sub-channel built by
`_constructLockedRepresentationsReference`: its current value and the list
of values passed to `setValue` on it so far (the publish log). -/
structure SubChannel where
  value : RepresentationsChoice
  log : List RepresentationsChoice
deriving DecidableEq

/-- Model of `ITrackSetting`: the track preference handed to `start`/`updateTrack`.
`lockedRepresentations` holds the current value of the read-only
locked-representations reference. -/
structure TrackSetting where
  adaptation : Adaptation
  switchingMode : TrackSwitchingMode
  relativeResumingPosition : Option Nat
  lockedRepresentations : Option RepresentationsChoice
deriving DecidableEq

/-- The construction-time initial value of the sub-channel (lines 168-171):
`{ representations: [], switchingMode: "lazy" }`. -/
def initialRepresentationsChoice : RepresentationsChoice :=
  { representations := [], switchingMode := RepresentationsSwitchingMode.lazy }

/-- Value content of `_constructLockedRepresentationsReference`
(lines 162-184): the reference starts at `initialRepresentationsChoice` and
`updateReferenceIfNeeded()` is called once before the reference is
returned. -/
def constructLockedRepresentationsReference (trackInfo : TrackSetting) : SubChannel :=
  let r := updateReferenceIfNeeded trackInfo.adaptation
             trackInfo.lockedRepresentations initialRepresentationsChoice
  { value := r.newRef
    log := if r.published then [r.newRef] else [] }

/-! ### The outward adaptation channel and the dispatcher state -/

/-- Entries of `_lastEmitted`: `{ adaptation, switchingMode,
lockedRepresentations }` (the code always stores `lockedRepresentations:
null`). -/
structure Snapshot where
  adaptation : Adaptation
  switchingMode : TrackSwitchingMode
  lockedRepresentations : Option (List Representation)
deriving DecidableEq

/-- Model of `IAdaptationChoice`: the non-null values pushed on the outward
channel.  `representations` holds the sub-channel handed out with the
choice. -/
structure AdaptationChoice where
  adaptation : Adaptation
  switchingMode : TrackSwitchingMode
  representations : SubChannel
  relativeResumingPosition : Option Nat
deriving DecidableEq

/-- Modelled from the spec, section 4.2: the outward
`SharedReference<IAdaptationChoice | null | undefined>`.  `value = none`
is the `undefined` initial state, `value = some none` is `null`,
`value = some (some c)` a committed choice.  `log` records every value
passed to a successful `setValue`. -/
structure OutwardChannel where
  value : Option (Option AdaptationChoice)
  log : List (Option AdaptationChoice)
  subscribers : List Nat
  finished : Bool
deriving DecidableEq

/-- Modelled from the spec, section 4.2: `setValue` is a no-op once the
channel is finished; otherwise it replaces the current value and appends to
the publish log. -/
def OutwardChannel.setValue (c : OutwardChannel) (v : Option AdaptationChoice) :
    OutwardChannel :=
  if c.finished then c
  else { c with value := some v, log := c.log ++ [v] }

/-- Modelled from the spec, section 4.2: `finish` marks the channel
permanently finished and detaches every subscriber; the current value is
kept readable. -/
def OutwardChannel.finish (c : OutwardChannel) : OutwardChannel :=
  { c with finished := true, subscribers := [] }

/-- The two manifest events `updateReferenceIfNeeded` is registered for. -/
inductive ManifestEvent
  | decipherabilityUpdate
  | manifestUpdate
deriving DecidableEq

/-- One manifest listener attached by a sub-channel construction; `cid` is
the construction it belongs to. -/
structure ManifestListener where
  cid : Nat
  event : ManifestEvent
deriving DecidableEq

/-- The mutable state of a `TrackDispatcher` instance, together with the
externally visible resources it manages: the outward channel, the manifest
listeners, the lock-reference subscriptions, the cleanups registered on its
current `TaskCanceller` (`registry`), and its own event-emitter listeners. -/
structure DispatcherState where
  updateToken : Bool
  lastEmitted : Option (Option Snapshot)
  outward : OutwardChannel
  cancellerCancelled : Bool
  registry : List Nat
  manifestListeners : List ManifestListener
  lockSubscriptions : List Nat
  ownListeners : Bool
  nextId : Nat
deriving DecidableEq

/-- Modelled from the spec, section 4.1: `TaskCanceller.cancel` runs every
registered cleanup in registration order, then clears the registry.  The
cleanups registered by the dispatcher are `removeListeners` (lines 231-234,
detaching the construction's two manifest listeners) and the `clearSignal`
removal of the construction's lock subscription. -/
def cancelCanceller (s : DispatcherState) : DispatcherState :=
  let s1 := s.registry.foldl
    (fun st cid =>
      { st with
        manifestListeners := st.manifestListeners.filter (fun l => l.cid != cid)
        lockSubscriptions := st.lockSubscriptions.filter (fun j => j != cid) })
    s
  { s1 with cancellerCancelled := true, registry := [] }

/-- Model of `this._canceller = new TaskCanceller()`: a fresh, live canceller with an
empty registry. -/
def replaceCanceller (s : DispatcherState) : DispatcherState :=
  { s with cancellerCancelled := false, registry := [] }

/-- Resource bookkeeping of `_constructLockedRepresentationsReference`
(lines 175-181): attach the two manifest listeners, register
`removeListeners` on the current canceller's signal, and subscribe to the
locked-representations reference with that signal as `clearSignal`.  If the
signal is already cancelled the cleanups run immediately (spec, section
4.1), so nothing stays attached. -/
def registerConstruction (s : DispatcherState) : DispatcherState :=
  let cid := s.nextId
  if s.cancellerCancelled then
    { s with nextId := cid + 1 }
  else
    { s with
      nextId := cid + 1
      manifestListeners := s.manifestListeners ++
        [{ cid := cid, event := ManifestEvent.decipherabilityUpdate },
         { cid := cid, event := ManifestEvent.manifestUpdate }]
      registry := s.registry ++ [cid]
      lockSubscriptions := s.lockSubscriptions ++ [cid] }

/-- The `_lastEmitted` snapshot written by a commit (lines 110-112 and
147). -/
def mkSnapshot (info : TrackSetting) : Snapshot :=
  { adaptation := info.adaptation
    switchingMode := info.switchingMode
    lockedRepresentations := none }

/-- The value `start` pushes on the outward channel (lines 114-118);
`relativeResumingPosition` is `undefined` there. -/
def startChoice (info : TrackSetting) : AdaptationChoice :=
  { adaptation := info.adaptation
    switchingMode := info.switchingMode
    representations := constructLockedRepresentationsReference info
    relativeResumingPosition := none }

/-- The value `updateTrack` pushes on the outward channel (lines 149-152). -/
def updateChoice (info : TrackSetting) : AdaptationChoice :=
  { adaptation := info.adaptation
    switchingMode := info.switchingMode
    representations := constructLockedRepresentationsReference info
    relativeResumingPosition := info.relativeResumingPosition }

/-- A public dispatcher operation appearing in a re-entrant chain. -/
inductive DispatcherOp
  | startOp (info : Option TrackSetting)
  | updateTrackOp (info : Option TrackSetting)
deriving DecidableEq

/-- Execution of a re-entrant chain of `start`/`updateTrack` calls: the
head operation runs, and the rest of the chain runs synchronously at the
sub-channel-construction point of the head (after its listeners are
registered, before its re-entrancy token check).  An operation on the
`null` branch has no construction point, so a chain cannot continue past
it.  Each branch mirrors the corresponding lines of
`track_dispatcher.ts`. -/
def runChain (s : DispatcherState) : List DispatcherOp → DispatcherState
  | [] => s
  | DispatcherOp.startOp none :: _ =>
      -- lines 99-105
      let s0 := { s with updateToken := true }
      let s1 := { s0 with lastEmitted := some none, updateToken := false }
      { s1 with outward := s1.outward.setValue none }
  | DispatcherOp.startOp (some info) :: rest =>
      -- lines 99, 106-118
      let s0 := { s with updateToken := true }
      let s1 := registerConstruction s0
      let s2 := runChain s1 rest
      if s2.updateToken = false then s2
      else
        let s3 := { s2 with
          lastEmitted := some (some (mkSnapshot info))
          updateToken := false }
        { s3 with outward := s3.outward.setValue (some (startChoice info)) }
  | DispatcherOp.updateTrackOp none :: _ =>
      -- lines 126-138
      let s0 := { s with updateToken := true }
      if s0.lastEmitted = some none then s0
      else
        let s1 := replaceCanceller (cancelCanceller { s0 with updateToken := false })
        let s2 := { s1 with lastEmitted := some none }
        { s2 with outward := s2.outward.setValue none }
  | DispatcherOp.updateTrackOp (some info) :: rest =>
      -- lines 126, 140-152
      let s0 := { s with updateToken := true }
      let s1 := replaceCanceller (cancelCanceller s0)
      let s2 := registerConstruction s1
      let s3 := runChain s2 rest
      if s3.updateToken = false then s3
      else
        let s4 := { s3 with
          lastEmitted := some (some (mkSnapshot info))
          updateToken := false }
        { s4 with outward := s4.outward.setValue (some (updateChoice info)) }

/-- Model of `TrackDispatcher.start` without re-entrant interference. -/
def start (s : DispatcherState) (info : Option TrackSetting) : DispatcherState :=
  runChain s [DispatcherOp.startOp info]

/-- Model of `TrackDispatcher.updateTrack` without re-entrant interference. -/
def updateTrack (s : DispatcherState) (info : Option TrackSetting) : DispatcherState :=
  runChain s [DispatcherOp.updateTrackOp info]

/-- Model of `TrackDispatcher.dispose` (lines 241-245): detach the dispatcher's own
event-emitter listeners, cancel the internal canceller, finish the outward
channel. -/
def dispose (s : DispatcherState) : DispatcherState :=
  let s1 := { s with ownListeners := false }
  let s2 := cancelCanceller s1
  { s2 with outward := s2.outward.finish }

/-! ### Concrete fixtures used by counterexamples and witnesses -/

/-- Playable representation with bitrate 5. -/
def repB5 : Representation := { id := "r5", bitrate := 5, isPlayable := true }

/-- Playable representation with bitrate 1. -/
def repB1 : Representation := { id := "r1", bitrate := 1, isPlayable := true }

/-- Playable representation with bitrate 3. -/
def repB3 : Representation := { id := "r3", bitrate := 3, isPlayable := true }

/-- Adaptation whose candidates have bitrates {5, 1, 3}. -/
def adaptation513 : Adaptation :=
  { representations := [repB5, repB1, repB3], isSupported := true }

/-- A representation that is currently not playable. -/
def repUnplayable : Representation := { id := "R1", bitrate := 1, isPlayable := false }

/-- Adaptation holding only the unplayable `repUnplayable`. -/
def adaptationUnplayable : Adaptation :=
  { representations := [repUnplayable], isSupported := true }

/-- A lock restricted to the unplayable representation. -/
def lockUnplayable : RepresentationsChoice :=
  { representations := [repUnplayable]
    switchingMode := RepresentationsSwitchingMode.direct }

/-- Playable representation `R1` (bitrate 1). -/
def repR1 : Representation := { id := "R1", bitrate := 1, isPlayable := true }

/-- Playable representation `R2` (bitrate 2). -/
def repR2 : Representation := { id := "R2", bitrate := 2, isPlayable := true }

/-- Representation `R2` in its unplayable state. -/
def repR2Unplayable : Representation := { id := "R2", bitrate := 2, isPlayable := false }

/-- Adaptation where only `R1` is playable (`R2` is not). -/
def adaptationR1OnlyPlayable : Adaptation :=
  { representations := [repR1, repR2Unplayable], isSupported := true }

/-- A lock on `[R1]` with the `"direct"` switching mode. -/
def lockR1Direct : RepresentationsChoice :=
  { representations := [repR1]
    switchingMode := RepresentationsSwitchingMode.direct }

/-- Adaptation where `R1` and `R2` are both playable. -/
def adaptationR1R2 : Adaptation :=
  { representations := [repR1, repR2], isSupported := true }

/-- A lock on `[R2]` with the `"direct"` switching mode. -/
def lockR2Direct : RepresentationsChoice :=
  { representations := [repR2]
    switchingMode := RepresentationsSwitchingMode.direct }

/-- An outward channel as its owner hands it over: `undefined` value, no
publish yet, one stored subscriber, not finished. -/
def freshOutward : OutwardChannel :=
  { value := none, log := [], subscribers := [7], finished := false }

/-- A dispatcher just after its constructor ran (lines 84-93). -/
def freshState : DispatcherState :=
  { updateToken := false
    lastEmitted := none
    outward := freshOutward
    cancellerCancelled := false
    registry := []
    manifestListeners := []
    lockSubscriptions := []
    ownListeners := true
    nextId := 0 }

/-- A dispatcher whose last committed preference was `null`. -/
def nullCommittedState : DispatcherState :=
  { freshState with
    lastEmitted := some none
    outward := { freshOutward with value := some none, log := [none] } }

/-- Track setting `A` used in the re-entrancy scenarios: adaptation with one
playable representation, no lock. -/
def settingA : TrackSetting :=
  { adaptation := { representations := [{ id := "A1", bitrate := 1, isPlayable := true }]
                    isSupported := true }
    switchingMode := TrackSwitchingMode.direct
    relativeResumingPosition := none
    lockedRepresentations := none }

/-- Track setting `B` used in the re-entrancy scenarios. -/
def settingB : TrackSetting :=
  { adaptation := { representations := [{ id := "B1", bitrate := 2, isPlayable := true }]
                    isSupported := true }
    switchingMode := TrackSwitchingMode.seamless
    relativeResumingPosition := some 4
    lockedRepresentations := none }

/-- Track setting whose candidate set is empty at construction: no lock and
no playable representation. -/
def settingNoPlayable : TrackSetting :=
  { adaptation := adaptationUnplayable
    switchingMode := TrackSwitchingMode.direct
    relativeResumingPosition := none
    lockedRepresentations := none }

/-! ### Helper lemmas about the sort -/

theorem sortByBitrate_length (l : List Representation) :
    (sortByBitrate l).length = l.length :=
  List.length_insertionSort bitrateLE l

theorem sortByBitrate_ne_nil (l : List Representation) (h : l ≠ []) :
    sortByBitrate l ≠ [] := by
  intro hc
  apply h
  have := sortByBitrate_length l
  rw [hc] at this
  exact List.length_eq_zero.mp this.symm

theorem sortByBitrate_sorted (l : List Representation) :
    List.Sorted bitrateLE (sortByBitrate l) :=
  List.sorted_insertionSort bitrateLE l

theorem sortByBitrate_perm (l : List Representation) :
    List.Perm (sortByBitrate l) l :=
  List.perm_insertionSort bitrateLE l

theorem filter_bitrate_orderedInsert (b : Nat) (a : Representation)
    (l : List Representation) :
    (List.orderedInsert bitrateLE a l).filter (fun x => x.bitrate == b) =
      if a.bitrate == b then a :: l.filter (fun x => x.bitrate == b)
      else l.filter (fun x => x.bitrate == b) := by
  induction l with
  | nil => by_cases h : a.bitrate = b <;> simp [h]
  | cons x xs ih =>
      by_cases hax : bitrateLE a x
      · by_cases h : a.bitrate = b <;>
          simp [List.orderedInsert, hax, List.filter_cons, h]
      · have hax' : ¬ a.bitrate ≤ x.bitrate := hax
        by_cases h : a.bitrate = b
        · have hx : (x.bitrate == b) = false := by
            simp only [beq_eq_false_iff_ne, ne_eq]
            omega
          simp [List.orderedInsert, hax, List.filter_cons, hx, ih, h]
        · simp [List.orderedInsert, hax, List.filter_cons, ih, h]

/-- Stability of the sort: for every bitrate value, the candidates carrying
that bitrate appear in the sorted list in their original relative order. -/
theorem sortByBitrate_filter_bitrate (b : Nat) (l : List Representation) :
    (sortByBitrate l).filter (fun x => x.bitrate == b) =
      l.filter (fun x => x.bitrate == b) := by
  induction l with
  | nil => rfl
  | cons a l ih =>
      simp only [sortByBitrate, List.insertionSort] at ih ⊢
      rw [filter_bitrate_orderedInsert, ih, List.filter_cons]

/-- Two representation lists have the same id sequence exactly when they
have the same length and the pointwise id comparison of the code's loop
(lines 223-228) finds no mismatch. -/
theorem map_id_eq_iff (l m : List Representation) :
    l.map (fun r => r.id) = m.map (fun r => r.id) ↔
      (l.length = m.length ∧
        (l.zip m).any (fun p => p.1.id != p.2.id) = false) := by
  induction l generalizing m with
  | nil => cases m <;> simp
  | cons a l ih =>
      cases m with
      | nil => simp
      | cons x m =>
          simp only [List.map_cons, List.cons.injEq, List.length_cons,
            List.zip_cons_cons, List.any_cons, Bool.or_eq_false_iff,
            bne_eq_false_iff_eq, add_left_inj, ih]
          tauto

/-! ### Helper lemmas about the recompute -/

theorem checkPlayableAndPublish_nil (a : Adaptation)
    (m : RepresentationsSwitchingMode) (old : RepresentationsChoice) :
    checkPlayableAndPublish a [] m old =
      { adaptation := { a with isSupported := false }
        newRef := old
        published := false
        events := [TrackDispatcherEvent.noPlayableRepresentation] } := by
  simp [checkPlayableAndPublish]

theorem checkPlayableAndPublish_newRef_of_published (a : Adaptation)
    (ps : List Representation) (m : RepresentationsSwitchingMode)
    (old : RepresentationsChoice)
    (h : (checkPlayableAndPublish a ps m old).published = true) :
    (checkPlayableAndPublish a ps m old).newRef =
      { representations := sortByBitrate ps, switchingMode := m } := by
  simp only [checkPlayableAndPublish] at h ⊢
  split_ifs at h ⊢ <;> simp_all

theorem checkPlayableAndPublish_newRef_of_not_published (a : Adaptation)
    (ps : List Representation) (m : RepresentationsSwitchingMode)
    (old : RepresentationsChoice)
    (h : (checkPlayableAndPublish a ps m old).published = false) :
    (checkPlayableAndPublish a ps m old).newRef = old := by
  simp only [checkPlayableAndPublish] at h ⊢
  split_ifs at h ⊢ <;> simp_all

theorem checkPlayableAndPublish_of_ne_nil (a : Adaptation)
    (ps : List Representation) (m : RepresentationsSwitchingMode)
    (old : RepresentationsChoice) (h : ps ≠ []) :
    (checkPlayableAndPublish a ps m old).adaptation = a ∧
    (checkPlayableAndPublish a ps m old).events = [] := by
  have hlen : ¬ ps.length ≤ 0 := by
    simpa [Nat.le_zero, List.length_eq_zero] using h
  simp only [checkPlayableAndPublish]
  split_ifs <;> simp_all

theorem checkPlayableAndPublish_published_iff (a : Adaptation)
    (ps : List Representation) (m : RepresentationsSwitchingMode)
    (old : RepresentationsChoice) (h : ps ≠ []) :
    ((checkPlayableAndPublish a ps m old).published = true ↔
      (sortByBitrate ps).map (fun r => r.id) ≠
        old.representations.map (fun r => r.id)) := by
  have hlen : ¬ ps.length ≤ 0 := by
    simpa [Nat.le_zero, List.length_eq_zero] using h
  have hiff := map_id_eq_iff old.representations (sortByBitrate ps)
  simp only [checkPlayableAndPublish]
  rw [if_neg hlen]
  split_ifs with h1 h2
  · constructor
    · intro _ hmap
      exact h1 (by
        rw [← List.length_map (sortByBitrate ps) (fun r => r.id), hmap,
          List.length_map])
    · intro _
      rfl
  · constructor
    · intro _ hmap
      have := (hiff.mp hmap.symm).2
      rw [this] at h2
      exact absurd h2 (by simp)
    · intro _
      rfl
  · constructor
    · intro hfalse
      exact absurd hfalse (by simp)
    · intro hmap
      exfalso
      apply hmap
      have hany : (old.representations.zip (sortByBitrate ps)).any
          (fun p => p.1.id != p.2.id) = false := by
        cases hx : (old.representations.zip (sortByBitrate ps)).any
            (fun p => p.1.id != p.2.id)
        · rfl
        · exact absurd hx h2
      have hlen2 : old.representations.length = (sortByBitrate ps).length := by
        by_contra hne
        exact h1 (fun hc => hne hc.symm)
      exact (hiff.mpr ⟨hlen2, hany⟩).symm

theorem updateReferenceIfNeeded_none_empty (a : Adaptation)
    (old : RepresentationsChoice) (h : a.getPlayableRepresentations = []) :
    updateReferenceIfNeeded a none old =
      { adaptation := { a with isSupported := false }
        newRef := old
        published := false
        events := [TrackDispatcherEvent.noPlayableRepresentation] } := by
  simp only [updateReferenceIfNeeded, h]
  exact checkPlayableAndPublish_nil a RepresentationsSwitchingMode.lazy old

theorem updateReferenceIfNeeded_some_empty (a : Adaptation)
    (rc : RepresentationsChoice) (old : RepresentationsChoice)
    (h : rc.representations.filter (fun r => r.isPlayable) = []) :
    updateReferenceIfNeeded a (some rc) old =
      { adaptation := a
        newRef := old
        published := false
        events := [TrackDispatcherEvent.noPlayableLockedRepresentation] } := by
  simp [updateReferenceIfNeeded, h]

theorem updateReferenceIfNeeded_newRef_of_published (a : Adaptation)
    (rs : Option RepresentationsChoice) (old : RepresentationsChoice)
    (h : (updateReferenceIfNeeded a rs old).published = true) :
    (updateReferenceIfNeeded a rs old).newRef =
      { representations := sortByBitrate (candidateRepresentations a rs)
        switchingMode := chosenSwitchingMode rs } := by
  cases rs with
  | none =>
      simp only [updateReferenceIfNeeded] at h ⊢
      simpa [candidateRepresentations, chosenSwitchingMode] using
        checkPlayableAndPublish_newRef_of_published a
          a.getPlayableRepresentations RepresentationsSwitchingMode.lazy old h
  | some rc =>
      simp only [updateReferenceIfNeeded] at h ⊢
      by_cases h0 : (rc.representations.filter (fun r => r.isPlayable)).length = 0
      · rw [if_pos h0] at h
        simp at h
      · rw [if_neg h0] at h ⊢
        simpa [candidateRepresentations, chosenSwitchingMode] using
          checkPlayableAndPublish_newRef_of_published a
            (rc.representations.filter (fun r => r.isPlayable))
            rc.switchingMode old h

theorem updateReferenceIfNeeded_newRef_of_not_published (a : Adaptation)
    (rs : Option RepresentationsChoice) (old : RepresentationsChoice)
    (h : (updateReferenceIfNeeded a rs old).published = false) :
    (updateReferenceIfNeeded a rs old).newRef = old := by
  cases rs with
  | none =>
      simp only [updateReferenceIfNeeded] at h ⊢
      exact checkPlayableAndPublish_newRef_of_not_published a
        a.getPlayableRepresentations RepresentationsSwitchingMode.lazy old h
  | some rc =>
      simp only [updateReferenceIfNeeded] at h ⊢
      by_cases h0 : (rc.representations.filter (fun r => r.isPlayable)).length = 0
      · rw [if_pos h0]
      · rw [if_neg h0] at h ⊢
        exact checkPlayableAndPublish_newRef_of_not_published a
          (rc.representations.filter (fun r => r.isPlayable))
          rc.switchingMode old h

theorem updateReferenceIfNeeded_published_iff (a : Adaptation)
    (rs : Option RepresentationsChoice) (old : RepresentationsChoice)
    (h : candidateRepresentations a rs ≠ []) :
    ((updateReferenceIfNeeded a rs old).published = true ↔
      (sortByBitrate (candidateRepresentations a rs)).map (fun r => r.id) ≠
        old.representations.map (fun r => r.id)) := by
  cases rs with
  | none =>
      simp only [candidateRepresentations] at h ⊢
      simp only [updateReferenceIfNeeded]
      exact checkPlayableAndPublish_published_iff a
        a.getPlayableRepresentations RepresentationsSwitchingMode.lazy old h
  | some rc =>
      simp only [candidateRepresentations] at h ⊢
      simp only [updateReferenceIfNeeded]
      have h0 : ¬ (rc.representations.filter (fun r => r.isPlayable)).length = 0 := by
        simpa [List.length_eq_zero] using h
      rw [if_neg h0]
      exact checkPlayableAndPublish_published_iff a
        (rc.representations.filter (fun r => r.isPlayable))
        rc.switchingMode old h

theorem updateReferenceIfNeeded_empty (a : Adaptation)
    (rs : Option RepresentationsChoice) (old : RepresentationsChoice)
    (h : candidateRepresentations a rs = []) :
    (updateReferenceIfNeeded a rs old).published = false ∧
    (updateReferenceIfNeeded a rs old).newRef = old ∧
    (updateReferenceIfNeeded a rs old).events ≠ [] := by
  cases rs with
  | none =>
      simp only [candidateRepresentations] at h
      rw [updateReferenceIfNeeded_none_empty a old h]
      simp
  | some rc =>
      simp only [candidateRepresentations] at h
      rw [updateReferenceIfNeeded_some_empty a rc old h]
      simp

/-! ### Claims about the recompute -/

/-- C2: the Representations-Choice sub-channel never publishes a value with
an empty representations list; whenever the computed candidate set is empty
the channel's current value is retained unchanged and a warning event fires
instead. -/
theorem claim2_never_publishes_empty (a : Adaptation)
    (rs : Option RepresentationsChoice) (old : RepresentationsChoice) :
    ((updateReferenceIfNeeded a rs old).published = false ∨
      (updateReferenceIfNeeded a rs old).newRef.representations ≠ []) ∧
    (if candidateRepresentations a rs = [] then
      (updateReferenceIfNeeded a rs old).newRef = old ∧
      (updateReferenceIfNeeded a rs old).published = false ∧
      (updateReferenceIfNeeded a rs old).events ≠ []
    else True) := by
  constructor
  · by_cases hc : candidateRepresentations a rs = []
    · exact Or.inl (updateReferenceIfNeeded_empty a rs old hc).1
    · cases hp : (updateReferenceIfNeeded a rs old).published
      · exact Or.inl rfl
      · refine Or.inr ?_
        rw [updateReferenceIfNeeded_newRef_of_published a rs old hp]
        exact sortByBitrate_ne_nil _ hc
  · by_cases hc : candidateRepresentations a rs = []
    · rw [if_pos hc]
      obtain ⟨h1, h2, h3⟩ := updateReferenceIfNeeded_empty a rs old hc
      exact ⟨h2, h1, h3⟩
    · rw [if_neg hc]
      trivial

/-- C3: with a non-empty candidate set, a recompute publishes exactly when
the sorted candidate list differs from the channel's current value in
length or in some Representation id at the same position (equivalently:
when the id sequences differ), and a second recompute from the resulting
value never publishes again. -/
theorem claim3_publish_iff_id_sequence_changed (a : Adaptation)
    (rs : Option RepresentationsChoice) (old : RepresentationsChoice)
    (h : candidateRepresentations a rs ≠ []) :
    ((updateReferenceIfNeeded a rs old).published = true ↔
      (sortByBitrate (candidateRepresentations a rs)).map (fun r => r.id) ≠
        old.representations.map (fun r => r.id)) ∧
    (updateReferenceIfNeeded a rs
        (updateReferenceIfNeeded a rs old).newRef).published = false := by
  refine ⟨updateReferenceIfNeeded_published_iff a rs old h, ?_⟩
  have hiff2 := updateReferenceIfNeeded_published_iff a rs
    (updateReferenceIfNeeded a rs old).newRef h
  cases hp : (updateReferenceIfNeeded a rs old).published
  · have hnew := updateReferenceIfNeeded_newRef_of_not_published a rs old hp
    have h1 := updateReferenceIfNeeded_published_iff a rs old h
    have hmapeq : (sortByBitrate (candidateRepresentations a rs)).map
        (fun r => r.id) = old.representations.map (fun r => r.id) := by
      by_contra hne
      have := h1.mpr hne
      rw [hp] at this
      exact absurd this (by simp)
    cases hp2 : (updateReferenceIfNeeded a rs
        (updateReferenceIfNeeded a rs old).newRef).published
    · rfl
    · have := hiff2.mp hp2
      rw [hnew] at this
      exact absurd hmapeq this
  · have hnew := updateReferenceIfNeeded_newRef_of_published a rs old hp
    cases hp2 : (updateReferenceIfNeeded a rs
        (updateReferenceIfNeeded a rs old).newRef).published
    · rfl
    · have hne := hiff2.mp hp2
      rw [hnew] at hne
      exact absurd rfl hne

/-- Witness for C3 at a concrete input with a non-empty candidate set. -/
theorem claim3_witness :
    candidateRepresentations adaptation513 none ≠ [] ∧
    (((updateReferenceIfNeeded adaptation513 none
          initialRepresentationsChoice).published = true ↔
        (sortByBitrate (candidateRepresentations adaptation513 none)).map
            (fun r => r.id) ≠
          initialRepresentationsChoice.representations.map (fun r => r.id)) ∧
      (updateReferenceIfNeeded adaptation513 none
          (updateReferenceIfNeeded adaptation513 none
            initialRepresentationsChoice).newRef).published = false) :=
  ⟨by decide, claim3_publish_iff_id_sequence_changed adaptation513 none
    initialRepresentationsChoice (by decide)⟩

/-- C4: every published representations list is the candidates sorted in
ascending bitrate order, with ties kept in their original relative order
(stability stated as preservation of the per-bitrate sublists). -/
theorem claim4_published_sorted_and_stable (a : Adaptation)
    (rs : Option RepresentationsChoice) (old : RepresentationsChoice)
    (h : (updateReferenceIfNeeded a rs old).published = true) :
    List.Sorted bitrateLE
      (updateReferenceIfNeeded a rs old).newRef.representations ∧
    ∀ b : Nat,
      (updateReferenceIfNeeded a rs old).newRef.representations.filter
          (fun x => x.bitrate == b) =
        (candidateRepresentations a rs).filter (fun x => x.bitrate == b) := by
  rw [updateReferenceIfNeeded_newRef_of_published a rs old h]
  exact ⟨sortByBitrate_sorted _, fun b => sortByBitrate_filter_bitrate b _⟩

/-- Witness for C4: candidate bitrates {5, 1, 3} are published as
[1, 3, 5]. -/
theorem claim4_witness :
    (updateReferenceIfNeeded adaptation513 none
        initialRepresentationsChoice).published = true ∧
    (updateReferenceIfNeeded adaptation513 none
        initialRepresentationsChoice).newRef.representations.map
      (fun r => r.bitrate) = [1, 3, 5] ∧
    (List.Sorted bitrateLE
        (updateReferenceIfNeeded adaptation513 none
          initialRepresentationsChoice).newRef.representations ∧
      ∀ b : Nat,
        (updateReferenceIfNeeded adaptation513 none
            initialRepresentationsChoice).newRef.representations.filter
            (fun x => x.bitrate == b) =
          (candidateRepresentations adaptation513 none).filter
            (fun x => x.bitrate == b)) :=
  ⟨by decide, by decide,
    claim4_published_sorted_and_stable adaptation513 none
      initialRepresentationsChoice (by decide)⟩

/-- Counterexample to C5 as stated: a locked recompute whose filtered set
is empty leaves `isSupported` untouched (still `true`) and emits
`noPlayableLockedRepresentation`, not `noPlayableRepresentation`. -/
theorem claim5_counterexample :
    (updateReferenceIfNeeded adaptationUnplayable (some lockUnplayable)
        initialRepresentationsChoice).adaptation.isSupported = true ∧
    (updateReferenceIfNeeded adaptationUnplayable (some lockUnplayable)
        initialRepresentationsChoice).events =
      [TrackDispatcherEvent.noPlayableLockedRepresentation] := by
  decide

/-- C5 amended: only the unlocked branch's empty candidate set resets
`adaptation.isSupported` and emits `noPlayableRepresentation` exactly once;
a locked recompute with an empty filtered set instead emits
`noPlayableLockedRepresentation` and leaves the adaptation untouched.  In
both cases the sub-channel's value is unchanged. -/
theorem claim5_amended_empty_candidate_handling (a : Adaptation)
    (rs : Option RepresentationsChoice) (old : RepresentationsChoice) :
    (if candidateRepresentations a rs = [] then
      (updateReferenceIfNeeded a rs old).newRef = old ∧
      (updateReferenceIfNeeded a rs old).published = false ∧
      (match rs with
       | none =>
          (updateReferenceIfNeeded a rs old).adaptation.isSupported = false ∧
          (updateReferenceIfNeeded a rs old).events =
            [TrackDispatcherEvent.noPlayableRepresentation]
       | some _ =>
          (updateReferenceIfNeeded a rs old).adaptation = a ∧
          (updateReferenceIfNeeded a rs old).events =
            [TrackDispatcherEvent.noPlayableLockedRepresentation])
    else True) := by
  by_cases hc : candidateRepresentations a rs = []
  · rw [if_pos hc]
    cases rs with
    | none =>
        simp only [candidateRepresentations] at hc
        rw [updateReferenceIfNeeded_none_empty a old hc]
        simp
    | some rc =>
        simp only [candidateRepresentations] at hc
        rw [updateReferenceIfNeeded_some_empty a rc old hc]
        simp
  · rw [if_neg hc]
    trivial

/-- C6: a locked recompute whose locked list filtered to playable
representations is empty emits `noPlayableLockedRepresentation`, does not
publish, retains the channel's value and mutates nothing (the model is a
total function, so no exception is thrown). -/
theorem claim6_no_playable_locked_representation (a : Adaptation)
    (rc : RepresentationsChoice) (old : RepresentationsChoice)
    (h : rc.representations.filter (fun r => r.isPlayable) = []) :
    (updateReferenceIfNeeded a (some rc) old).events =
      [TrackDispatcherEvent.noPlayableLockedRepresentation] ∧
    (updateReferenceIfNeeded a (some rc) old).newRef = old ∧
    (updateReferenceIfNeeded a (some rc) old).published = false ∧
    (updateReferenceIfNeeded a (some rc) old).adaptation = a := by
  rw [updateReferenceIfNeeded_some_empty a rc old h]
  exact ⟨rfl, rfl, rfl, rfl⟩

/-- Witness for C6: a lock on an unplayable representation with a previous
valid choice `[R1]` retains that choice. -/
theorem claim6_witness :
    lockUnplayable.representations.filter (fun r => r.isPlayable) = [] ∧
    ((updateReferenceIfNeeded adaptationUnplayable (some lockUnplayable)
        lockR1Direct).events =
      [TrackDispatcherEvent.noPlayableLockedRepresentation] ∧
    (updateReferenceIfNeeded adaptationUnplayable (some lockUnplayable)
        lockR1Direct).newRef = lockR1Direct ∧
    (updateReferenceIfNeeded adaptationUnplayable (some lockUnplayable)
        lockR1Direct).published = false ∧
    (updateReferenceIfNeeded adaptationUnplayable (some lockUnplayable)
        lockR1Direct).adaptation = adaptationUnplayable) :=
  ⟨by decide, claim6_no_playable_locked_representation adaptationUnplayable
    lockUnplayable lockR1Direct (by decide)⟩

/-- Counterexample to C8 as stated: lock `[R1]` (a proper subset of the
adaptation's representations) with switching mode `"direct"`, then unlock.
The playable set is exactly `[R1]`, so the unlock recompute detects no id
change and skips the publish: the channel keeps switching mode `"direct"`,
not `"lazy"`. -/
theorem claim8_counterexample :
    adaptationR1OnlyPlayable.getPlayableRepresentations = [repR1] ∧
    (updateReferenceIfNeeded adaptationR1OnlyPlayable none
        (updateReferenceIfNeeded adaptationR1OnlyPlayable (some lockR1Direct)
          initialRepresentationsChoice).newRef).newRef =
      { representations := [repR1]
        switchingMode := RepresentationsSwitchingMode.direct } := by
  decide

/-- C8 amended: after lock-then-unlock on an adaptation with a non-empty
playable set, the sub-channel holds representations whose id sequence is
exactly the full playable set sorted ascending by bitrate; when the unlock
actually publishes (the id sequence changed) the value is exactly the
sorted playable set with switching mode `"lazy"`, otherwise the previous
value — including its switching mode — is retained. -/
theorem claim8_amended_lock_round_trip (a : Adaptation)
    (lock : RepresentationsChoice) (old : RepresentationsChoice)
    (h : a.getPlayableRepresentations ≠ []) :
    ((updateReferenceIfNeeded a none
        (updateReferenceIfNeeded a (some lock) old).newRef).newRef.representations.map
          (fun r => r.id) =
      (sortByBitrate a.getPlayableRepresentations).map (fun r => r.id)) ∧
    ((updateReferenceIfNeeded a none
        (updateReferenceIfNeeded a (some lock) old).newRef).published = true →
      (updateReferenceIfNeeded a none
          (updateReferenceIfNeeded a (some lock) old).newRef).newRef =
        { representations := sortByBitrate a.getPlayableRepresentations
          switchingMode := RepresentationsSwitchingMode.lazy }) := by
  have hc : candidateRepresentations a none ≠ [] := h
  constructor
  · cases hp : (updateReferenceIfNeeded a none
        (updateReferenceIfNeeded a (some lock) old).newRef).published
    · have hnew := updateReferenceIfNeeded_newRef_of_not_published a none
        (updateReferenceIfNeeded a (some lock) old).newRef hp
      have hiff := updateReferenceIfNeeded_published_iff a none
        (updateReferenceIfNeeded a (some lock) old).newRef hc
      have hmapeq : (sortByBitrate (candidateRepresentations a none)).map
          (fun r => r.id) =
          (updateReferenceIfNeeded a (some lock) old).newRef.representations.map
            (fun r => r.id) := by
        by_contra hne
        have := hiff.mpr hne
        rw [hp] at this
        exact absurd this (by simp)
      rw [hnew]
      exact hmapeq.symm
    · have hnew := updateReferenceIfNeeded_newRef_of_published a none
        (updateReferenceIfNeeded a (some lock) old).newRef hp
      rw [hnew]
      rfl
  · intro hp
    have hnew := updateReferenceIfNeeded_newRef_of_published a none
      (updateReferenceIfNeeded a (some lock) old).newRef hp
    rw [hnew]
    rfl

/-- Witness for C8 amended: lock `[R2]` on a fully playable `{R1, R2}`
adaptation, then unlock; the unlock publishes `[R1, R2]` with `"lazy"`. -/
theorem claim8_witness :
    adaptationR1R2.getPlayableRepresentations ≠ [] ∧
    (updateReferenceIfNeeded adaptationR1R2 none
        (updateReferenceIfNeeded adaptationR1R2 (some lockR2Direct)
          initialRepresentationsChoice).newRef).newRef =
      { representations := [repR1, repR2]
        switchingMode := RepresentationsSwitchingMode.lazy } ∧
    ((updateReferenceIfNeeded adaptationR1R2 none
        (updateReferenceIfNeeded adaptationR1R2 (some lockR2Direct)
          initialRepresentationsChoice).newRef).newRef.representations.map
          (fun r => r.id) =
      (sortByBitrate adaptationR1R2.getPlayableRepresentations).map
        (fun r => r.id)) :=
  ⟨by decide, by decide,
    (claim8_amended_lock_round_trip adaptationR1R2 lockR2Direct
      initialRepresentationsChoice (by decide)).1⟩

/-! ### Helper lemmas about the dispatcher state -/

theorem filter_remove_cons {β : Type} (key : β → Nat) (c : Nat) (reg : List Nat)
    (l : List β) :
    (l.filter (fun x => key x != c)).filter (fun x => !(decide (key x ∈ reg))) =
      l.filter (fun x => !(decide (key x ∈ c :: reg))) := by
  rw [List.filter_filter]
  apply List.filter_congr
  intro a _
  by_cases h1 : key a = c <;> by_cases h2 : key a ∈ reg <;> simp [h1, h2]

theorem foldlRemoveListeners_eq (reg : List Nat) (s : DispatcherState) :
    reg.foldl (fun st cid =>
      { st with
        manifestListeners := st.manifestListeners.filter (fun l => l.cid != cid)
        lockSubscriptions := st.lockSubscriptions.filter (fun j => j != cid) }) s =
      { s with
        manifestListeners := s.manifestListeners.filter
          (fun l => !(decide (l.cid ∈ reg)))
        lockSubscriptions := s.lockSubscriptions.filter
          (fun j => !(decide (j ∈ reg))) } := by
  induction reg generalizing s with
  | nil =>
      cases s
      simp
  | cons c reg ih =>
      simp only [List.foldl_cons]
      rw [ih]
      cases s with
      | mk tok le out cc rg ml ls ol ni =>
          simp only [DispatcherState.mk.injEq, true_and, and_true]
          exact ⟨filter_remove_cons (fun l => l.cid) c reg ml,
            filter_remove_cons (fun j => j) c reg ls⟩

theorem cancelCanceller_eq (s : DispatcherState) :
    cancelCanceller s =
      { s with
        cancellerCancelled := true
        registry := []
        manifestListeners := s.manifestListeners.filter
          (fun l => !(decide (l.cid ∈ s.registry)))
        lockSubscriptions := s.lockSubscriptions.filter
          (fun j => !(decide (j ∈ s.registry))) } := by
  unfold cancelCanceller
  rw [foldlRemoveListeners_eq]

theorem cancelCanceller_updateToken (s : DispatcherState) :
    (cancelCanceller s).updateToken = s.updateToken := by
  rw [cancelCanceller_eq]

theorem cancelCanceller_lastEmitted (s : DispatcherState) :
    (cancelCanceller s).lastEmitted = s.lastEmitted := by
  rw [cancelCanceller_eq]

theorem cancelCanceller_outward (s : DispatcherState) :
    (cancelCanceller s).outward = s.outward := by
  rw [cancelCanceller_eq]

theorem registerConstruction_updateToken (s : DispatcherState) :
    (registerConstruction s).updateToken = s.updateToken := by
  unfold registerConstruction
  split_ifs <;> rfl

theorem registerConstruction_lastEmitted (s : DispatcherState) :
    (registerConstruction s).lastEmitted = s.lastEmitted := by
  unfold registerConstruction
  split_ifs <;> rfl

theorem registerConstruction_outward (s : DispatcherState) :
    (registerConstruction s).outward = s.outward := by
  unfold registerConstruction
  split_ifs <;> rfl

/-- The state just before the re-entrancy point of a non-null
`updateTrack` call keeps the token, the snapshot and the outward channel of
the state at entry. -/
theorem prepState_facts (s : DispatcherState) :
    (registerConstruction (replaceCanceller (cancelCanceller s))).updateToken =
      s.updateToken ∧
    (registerConstruction (replaceCanceller (cancelCanceller s))).lastEmitted =
      s.lastEmitted ∧
    (registerConstruction (replaceCanceller (cancelCanceller s))).outward =
      s.outward := by
  refine ⟨?_, ?_, ?_⟩
  · rw [registerConstruction_updateToken]
    exact cancelCanceller_updateToken s
  · rw [registerConstruction_lastEmitted]
    exact cancelCanceller_lastEmitted s
  · rw [registerConstruction_outward]
    exact cancelCanceller_outward s

theorem setValue_not_finished (c : OutwardChannel) (v : Option AdaptationChoice)
    (h : c.finished = false) :
    c.setValue v = { c with value := some v, log := c.log ++ [v] } := by
  unfold OutwardChannel.setValue
  rw [if_neg (by simp [h])]

theorem runChain_updateTrack_some (s : DispatcherState) (info : TrackSetting)
    (rest : List DispatcherOp) :
    runChain s (DispatcherOp.updateTrackOp (some info) :: rest) =
      (let s3 := runChain (registerConstruction (replaceCanceller
          (cancelCanceller { s with updateToken := true }))) rest
       if s3.updateToken = false then s3
       else
         { s3 with
           lastEmitted := some (some (mkSnapshot info))
           updateToken := false
           outward := s3.outward.setValue (some (updateChoice info)) }) :=
  rfl

theorem runChain_updateTrack_none (s : DispatcherState)
    (rest : List DispatcherOp) :
    runChain s (DispatcherOp.updateTrackOp none :: rest) =
      (if s.lastEmitted = some none then { s with updateToken := true }
       else
         { replaceCanceller (cancelCanceller { s with updateToken := false }) with
           lastEmitted := some none
           outward := (replaceCanceller (cancelCanceller
             { s with updateToken := false })).outward.setValue none }) :=
  rfl

theorem runChain_start_some (s : DispatcherState) (info : TrackSetting)
    (rest : List DispatcherOp) :
    runChain s (DispatcherOp.startOp (some info) :: rest) =
      (let s2 := runChain (registerConstruction { s with updateToken := true }) rest
       if s2.updateToken = false then s2
       else
         { s2 with
           lastEmitted := some (some (mkSnapshot info))
           updateToken := false
           outward := s2.outward.setValue (some (startChoice info)) }) :=
  rfl

/-- A non-null `updateTrack` call with no re-entrant interference always
commits: the token set on entry survives to the commit point. -/
theorem updateTrack_some_commits (s : DispatcherState) (info : TrackSetting) :
    runChain s [DispatcherOp.updateTrackOp (some info)] =
      { registerConstruction (replaceCanceller
          (cancelCanceller { s with updateToken := true })) with
        lastEmitted := some (some (mkSnapshot info))
        updateToken := false
        outward := (registerConstruction (replaceCanceller
          (cancelCanceller { s with updateToken := true }))).outward.setValue
            (some (updateChoice info)) } := by
  have htok := (prepState_facts { s with updateToken := true }).1
  rw [runChain_updateTrack_some]
  simp only [runChain]
  rw [if_neg (by rw [htok]; simp)]

/-- Behaviour of `updateTrack(null)` when the last emitted snapshot is already `null`:
changes nothing except that it leaves the token set (lines 126-130 return
before resetting it). -/
theorem updateTrack_none_noop (s : DispatcherState)
    (h : s.lastEmitted = some none) :
    runChain s [DispatcherOp.updateTrackOp none] =
      { s with updateToken := true } := by
  rw [runChain_updateTrack_none, if_pos h]

/-- Behaviour of `updateTrack(null)` when the last emitted snapshot is not `null`: it
commits `null`. -/
theorem updateTrack_none_commits (s : DispatcherState)
    (h : ¬ s.lastEmitted = some none) :
    runChain s [DispatcherOp.updateTrackOp none] =
      { replaceCanceller (cancelCanceller { s with updateToken := false }) with
        lastEmitted := some none
        outward := (replaceCanceller (cancelCanceller
          { s with updateToken := false })).outward.setValue none } := by
  rw [runChain_updateTrack_none, if_neg h]

/-! ### Claims about the dispatcher -/

/-- Counterexample to C1 as stated: with the last emitted snapshot already
`null`, run `updateTrack(A)` and, during A's sub-channel construction, the
re-entrant `updateTrack(B)` with `B = null`.  The inner call is the
idempotent no-op of lines 128-130, which leaves the update token set, so
the outer call commits: the outward channel ends up reflecting `A` (not
`B = null`) and the chain publishes `A`, not `B`. -/
theorem claim1_counterexample :
    (runChain nullCommittedState
        [DispatcherOp.updateTrackOp (some settingA),
         DispatcherOp.updateTrackOp none]).outward.value =
      some (some (updateChoice settingA)) ∧
    (runChain nullCommittedState
        [DispatcherOp.updateTrackOp (some settingA),
         DispatcherOp.updateTrackOp none]).outward.log =
      [none, some (updateChoice settingA)] := by
  decide

/-- C1 amended: for a re-entrant chain `updateTrack(A)` with an inner
`updateTrack(B)` during A's sub-channel construction, the chain performs
exactly one publish on the outward channel and its final value reflects
`B` — except when `B` is `null` while the last emitted snapshot is already
`null`: then the inner call is an idempotent no-op that leaves the update
token set and the outer call commits `A`. -/
theorem claim1_amended_last_writer_wins (s : DispatcherState)
    (A : TrackSetting) (B : Option TrackSetting)
    (h : s.outward.finished = false) :
    (runChain s [DispatcherOp.updateTrackOp (some A),
        DispatcherOp.updateTrackOp B]).outward.log =
      s.outward.log ++
        [if B = none ∧ s.lastEmitted = some none
         then some (updateChoice A)
         else Option.map updateChoice B] ∧
    (runChain s [DispatcherOp.updateTrackOp (some A),
        DispatcherOp.updateTrackOp B]).outward.value =
      some (if B = none ∧ s.lastEmitted = some none
            then some (updateChoice A)
            else Option.map updateChoice B) := by
  obtain ⟨htok, hle, hout⟩ := prepState_facts { s with updateToken := true }
  rw [runChain_updateTrack_some]
  cases B with
  | some b =>
      rw [updateTrack_some_commits]
      simp [registerConstruction_outward, cancelCanceller_outward,
        replaceCanceller, OutwardChannel.setValue, h]
  | none =>
      by_cases hln : s.lastEmitted = some none
      · rw [updateTrack_none_noop _ (by rw [hle]; exact hln)]
        simp [hln, registerConstruction_outward, cancelCanceller_outward,
          replaceCanceller, OutwardChannel.setValue, h]
      · rw [updateTrack_none_commits _ (by rw [hle]; exact hln)]
        simp [hln, registerConstruction_outward, cancelCanceller_outward,
          registerConstruction_updateToken, cancelCanceller_updateToken,
          replaceCanceller, OutwardChannel.setValue, h]

/-- Witness for C1 amended: the normal scenario, an inner non-null
`updateTrack(B)` wins over the outer `updateTrack(A)` with exactly one
publish. -/
theorem claim1_witness :
    freshState.outward.finished = false ∧
    (runChain freshState [DispatcherOp.updateTrackOp (some settingA),
        DispatcherOp.updateTrackOp (some settingB)]).outward.log =
      freshState.outward.log ++ [some (updateChoice settingB)] ∧
    (runChain freshState [DispatcherOp.updateTrackOp (some settingA),
        DispatcherOp.updateTrackOp (some settingB)]).outward.value =
      some (some (updateChoice settingB)) := by
  refine ⟨rfl, ?_, ?_⟩
  · have := (claim1_amended_last_writer_wins freshState settingA
      (some settingB) rfl).1
    simpa using this
  · have := (claim1_amended_last_writer_wins freshState settingA
      (some settingB) rfl).2
    simpa using this

/-- C7: `updateTrack(null)` is idempotent.  A second `updateTrack(null)`
changes nothing beyond setting the token, the pair of calls publishes
`null` exactly once when the last emitted snapshot was not already `null`,
and when it already was `null` the first call is itself a no-op (nothing
further is published). -/
theorem claim7_null_update_idempotent (s : DispatcherState)
    (h : s.outward.finished = false) :
    updateTrack (updateTrack s none) none =
      { updateTrack s none with updateToken := true } ∧
    (updateTrack s none).outward.log =
      (if s.lastEmitted = some none then s.outward.log
       else s.outward.log ++ [none]) ∧
    (if s.lastEmitted = some none
     then updateTrack s none = { s with updateToken := true }
     else True) := by
  simp only [updateTrack]
  by_cases hln : s.lastEmitted = some none
  · have h1 : runChain s [DispatcherOp.updateTrackOp none] =
        { s with updateToken := true } := updateTrack_none_noop s hln
    refine ⟨?_, ?_, ?_⟩
    · rw [h1]
      exact updateTrack_none_noop _ hln
    · rw [h1, if_pos hln]
    · rw [if_pos hln]
      exact h1
  · have h1 := updateTrack_none_commits s hln
    refine ⟨?_, ?_, ?_⟩
    · rw [h1]
      exact updateTrack_none_noop _ rfl
    · rw [h1, if_neg hln]
      simp [replaceCanceller, cancelCanceller_outward, OutwardChannel.setValue, h]
    · rw [if_neg hln]
      trivial

/-- Witness for C7: from a freshly constructed dispatcher, two
`updateTrack(null)` calls in a row publish `null` exactly once. -/
theorem claim7_witness :
    freshState.outward.finished = false ∧
    (updateTrack freshState none).outward.log = [none] ∧
    updateTrack (updateTrack freshState none) none =
      { updateTrack freshState none with updateToken := true } := by
  refine ⟨rfl, ?_, (claim7_null_update_idempotent freshState rfl).1⟩
  have := (claim7_null_update_idempotent freshState rfl).2.1
  simpa using this

/-- C9: `dispose()` cancels the internal canceller (running the registered
cleanups, which detach the manifest listeners and lock subscriptions of
every live construction), detaches the dispatcher's own event-emitter
listeners and finishes the outward channel: afterwards the stored
subscribers are detached, `getValue` still returns the last value and the
last publish log, and any further `setValue` is a no-op. -/
theorem claim9_disposal_finality (s : DispatcherState)
    (v : Option AdaptationChoice) :
    (dispose s).cancellerCancelled = true ∧
    (dispose s).registry = [] ∧
    (dispose s).ownListeners = false ∧
    (dispose s).manifestListeners =
      s.manifestListeners.filter (fun l => !(decide (l.cid ∈ s.registry))) ∧
    (dispose s).lockSubscriptions =
      s.lockSubscriptions.filter (fun j => !(decide (j ∈ s.registry))) ∧
    (dispose s).outward.finished = true ∧
    (dispose s).outward.subscribers = [] ∧
    (dispose s).outward.value = s.outward.value ∧
    (dispose s).outward.log = s.outward.log ∧
    (dispose s).outward.setValue v = (dispose s).outward := by
  unfold dispose
  simp only [cancelCanceller_eq]
  simp [OutwardChannel.setValue, OutwardChannel.finish]

/-- C10: when a track setting's candidate set is already empty at
sub-channel construction, the returned reference still holds the
construction-time initial value `{representations: [], switchingMode:
"lazy"}` with an empty publish log, and `start` nevertheless commits it on
the outward channel — a consumer reading the committed reference observes
an empty representations list although that value was never passed to
`setValue`. -/
theorem claim10_empty_candidates_still_committed (info : TrackSetting)
    (s : DispatcherState)
    (h : candidateRepresentations info.adaptation info.lockedRepresentations = [])
    (h2 : s.outward.finished = false) :
    (constructLockedRepresentationsReference info).value =
      initialRepresentationsChoice ∧
    (constructLockedRepresentationsReference info).log = [] ∧
    (start s (some info)).outward.log =
      s.outward.log ++ [some (startChoice info)] ∧
    (start s (some info)).outward.value = some (some (startChoice info)) ∧
    (startChoice info).representations.value = initialRepresentationsChoice := by
  obtain ⟨hp, hn, _⟩ := updateReferenceIfNeeded_empty info.adaptation
    info.lockedRepresentations initialRepresentationsChoice h
  have hval : (constructLockedRepresentationsReference info).value =
      initialRepresentationsChoice := by
    unfold constructLockedRepresentationsReference
    simpa using hn
  have hlog : (constructLockedRepresentationsReference info).log = [] := by
    unfold constructLockedRepresentationsReference
    simp [hp]
  refine ⟨hval, hlog, ?_, ?_, hval⟩
  · show (runChain s [DispatcherOp.startOp (some info)]).outward.log = _
    rw [runChain_start_some]
    simp [runChain, registerConstruction_outward, registerConstruction_updateToken,
      OutwardChannel.setValue, h2]
  · show (runChain s [DispatcherOp.startOp (some info)]).outward.value = _
    rw [runChain_start_some]
    simp [runChain, registerConstruction_outward, registerConstruction_updateToken,
      OutwardChannel.setValue, h2]

/-- Witness for C10: a setting with no playable representation and no
lock. -/
theorem claim10_witness :
    candidateRepresentations settingNoPlayable.adaptation
        settingNoPlayable.lockedRepresentations = [] ∧
    freshState.outward.finished = false ∧
    ((constructLockedRepresentationsReference settingNoPlayable).value =
        initialRepresentationsChoice ∧
      (constructLockedRepresentationsReference settingNoPlayable).log = [] ∧
      (start freshState (some settingNoPlayable)).outward.log =
        freshState.outward.log ++ [some (startChoice settingNoPlayable)] ∧
      (start freshState (some settingNoPlayable)).outward.value =
        some (some (startChoice settingNoPlayable)) ∧
      (startChoice settingNoPlayable).representations.value =
        initialRepresentationsChoice) :=
  ⟨by decide, rfl,
    claim10_empty_candidates_still_committed settingNoPlayable freshState
      (by decide) rfl⟩

end RxPlayer
